import Mathlib

/- A shallow embedding of the bill lifecycle core of the Grace packing helper
(src/App.tsx, which also carries the storage service and the colour palette).
JavaScript strings are modelled through their character lists, so that every
operation reduces inside the kernel; epoch-millisecond timestamps are `Nat`;
the 32-bit wrap of the bitwise shift in the description hash is explicit on
`Int`.  Remote calls are modelled by their call traces with injected
outcomes. -/

set_option maxRecDepth 10000
set_option autoImplicit false

namespace Grace

/-- Packing status of a bill (the `PackingStatus` enum of types.ts). -/
inductive PackingStatus
  | PENDING
  | PACKED
deriving DecidableEq

/-- The Bill record (`BillData` of types.ts).  Optional fields (`colorTheme`,
`packedAt`) are `Option`; timestamps are epoch milliseconds. -/
structure BillData where
  id : String
  imageUrl : String
  customerName : String
  address : String
  invoiceNo : String
  billDate : String
  status : PackingStatus
  isDelivery : Bool
  hasCRN : Bool
  isEditedBill : Bool
  isAdditionalBill : Bool
  boxCount : Nat
  description : String
  colorTheme : Option String
  entryDate : String
  createdAt : Nat
  updatedAt : Nat
  packedAt : Option Nat
deriving DecidableEq

/-- Whitespace removed by `String.prototype.trim` (restricted to the ASCII
whitespace characters; the app's invoice numbers and dates contain no
exotic Unicode whitespace). -/
def isJsWhitespace (c : Char) : Bool :=
  c = ' ' || c = '\t' || c = '\n' || c = '\r' || c = '\x0b' || c = '\x0c'

/-- JavaScript `trim`: strip whitespace from both ends. -/
def jsTrim (s : String) : String :=
  String.mk (((s.data.dropWhile isJsWhitespace).reverse.dropWhile isJsWhitespace).reverse)

/-- JavaScript `toLowerCase` on one character (ASCII case folding; invoice
numbers in this app are ASCII). -/
def lowerChar (c : Char) : Char :=
  if 'A' ≤ c && c ≤ 'Z' then Char.ofNat (c.toNat + 32) else c

/-- JavaScript `toLowerCase` on a string. -/
def jsToLower (s : String) : String :=
  String.mk (s.data.map lowerChar)

/-- JavaScript `<` on strings: lexicographic comparison of code units,
character list by character list. -/
def jsLtChars : List Char → List Char → Bool
  | [], [] => false
  | [], _ :: _ => true
  | _ :: _, [] => false
  | a :: as, b :: bs =>
    if a < b then true
    else if b < a then false
    else jsLtChars as bs

/-- JavaScript `a < b` on strings. -/
def jsStrLt (a b : String) : Bool :=
  jsLtChars a.data b.data

/-- JavaScript `a <= b` on strings (no `b < a`). -/
def jsStrLe (a b : String) : Bool :=
  !jsStrLt b a

/-- The "today" view (`todayNewBills` in App.tsx): bills whose `entryDate`
equals the viewed date, sorted by `createdAt` descending.  The comparator
`(a, b) => b.createdAt - a.createdAt` of `Array.prototype.sort` is modelled
by sorting under the induced non-strict order. -/
def todayNewBills (allBills : List BillData) (currentDate : String) : List BillData :=
  List.insertionSort (fun a b => b.createdAt ≤ a.createdAt)
    (allBills.filter (fun b => b.entryDate == currentDate))

/-- The "backlog" view (`backlogBills` in App.tsx): PENDING bills dated
strictly before the viewed date, sorted by `entryDate` ascending (the
`localeCompare` comparator on ISO dates is code-unit lexicographic). -/
def backlogBills (allBills : List BillData) (currentDate : String) : List BillData :=
  List.insertionSort (fun a b => jsStrLe a.entryDate b.entryDate = true)
    (allBills.filter (fun b =>
      (b.status == PackingStatus.PENDING) && jsStrLt b.entryDate currentDate))

/-- Invoice normalisation used by the duplicate check of `handleAddBill`:
trim, then lower-case. -/
def normalizeInvoice (s : String) : String :=
  jsToLower (jsTrim s)

/-- The duplicate check of `handleAddBill`: it runs only for a truthy
extracted invoice number whose normalisation is non-empty; a stored bill
matches when its own `invoiceNo` is truthy and normalises to the candidate;
`Array.prototype.find` returns the first match in insertion order. -/
def findDuplicate (allBills : List BillData) (candidate : String) : Option BillData :=
  if candidate != "" then
    let normalizedNew := normalizeInvoice candidate
    if normalizedNew.length > 0 then
      allBills.find? (fun b =>
        (b.invoiceNo != "") && (normalizeInvoice b.invoiceNo == normalizedNew))
    else none
  else none

/-- The candidate fields returned by the extraction collaborator. -/
structure ExtractedFields where
  customerName : String
  address : String
  invoiceNo : String
  billDate : String
deriving DecidableEq

/-- The record constructed by `createBill`: status PENDING, no `packedAt`,
no `colorTheme`, `entryDate` the viewed date, both timestamps `now`; the
optional manual quick-add data supplies `boxCount` and `description`;
offline with a captured image the base64 payload becomes the displayed
`imageUrl`. -/
def mkNewBill (newId : String) (extracted : ExtractedFields)
    (manualBoxCount : Option Nat) (manualDescription : Option String)
    (currentDate : String) (now : Nat) (isConfigured : Bool)
    (base64Image : Option String) : BillData where
  id := newId
  imageUrl := if !isConfigured then base64Image.getD "" else ""
  customerName := extracted.customerName
  address := extracted.address
  invoiceNo := extracted.invoiceNo
  billDate := extracted.billDate
  status := PackingStatus.PENDING
  isDelivery := false
  hasCRN := false
  isEditedBill := false
  isAdditionalBill := false
  boxCount := manualBoxCount.getD 0
  description := manualDescription.getD ""
  entryDate := currentDate
  colorTheme := none
  createdAt := now
  updatedAt := now
  packedAt := none

/-- The local-store transition of `createBill`: optimistic prepend; offline
it stops there; online a throwing `saveBillToSupabase` filters every bill
with the new id out again (the optimistic insert is reverted), a successful
persist leaves the store as inserted. -/
def createBillStore (isConfigured persistFails : Bool) (newBill : BillData)
    (store : List BillData) : List BillData :=
  let optimistic := newBill :: store
  if isConfigured then
    if persistFails then optimistic.filter (fun b => b.id != newBill.id)
    else optimistic
  else optimistic

/-- Outcome of one `handleAddBill` attempt. -/
inductive AddOutcome
  | duplicateAlert (existing : BillData)
  | created
deriving DecidableEq

/-- The duplicate-check phase of `handleAddBill` followed by `createBill`.
The duplicate check runs only on the scan path (`hasImage`); the result
carries the outcome, the store afterwards, and whether a remote persist was
attempted (`saveBillToSupabase` is reached only on the creation path with a
configured backend). -/
def handleAddBill (isConfigured persistFails hasImage : Bool)
    (store : List BillData) (newBill : BillData) :
    AddOutcome × List BillData × Bool :=
  match (if hasImage then findDuplicate store newBill.invoiceNo else none) with
  | some existing => (AddOutcome.duplicateAlert existing, store, false)
  | none =>
      (AddOutcome.created, createBillStore isConfigured persistFails newBill store,
       isConfigured)

/-- The per-bill update of `handlePackSelected`: status PACKED, `packedAt`
and `updatedAt` the batch timestamp. -/
def packBill (now : Nat) (b : BillData) : BillData :=
  { b with status := PackingStatus.PACKED, packedAt := some now, updatedAt := now }

/-- `handlePackSelected`: every bill whose id is selected is re-written by
`packBill` with the one batch timestamp; other bills pass through. -/
def handlePackSelected (selectedIds : List String) (now : Nat)
    (allBills : List BillData) : List BillData :=
  allBills.map (fun b => if selectedIds.contains b.id then packBill now b else b)

/-- The per-bill update of `applyGroupSettings`: the group name, the chosen
colour — an empty colour choice is stored as absent, the JavaScript
`groupColorInput || undefined` — and a fresh `updatedAt`. -/
def groupRetagBill (groupNameInput groupColorInput : String) (now : Nat)
    (b : BillData) : BillData :=
  { b with description := groupNameInput,
           colorTheme := if groupColorInput = "" then none else some groupColorInput,
           updatedAt := now }

/-- `applyGroupSettings`: selected bills are re-written by `groupRetagBill`;
other bills pass through. -/
def applyGroupSettings (selectedIds : List String)
    (groupNameInput groupColorInput : String) (now : Nat)
    (allBills : List BillData) : List BillData :=
  allBills.map (fun b =>
    if selectedIds.contains b.id then
      groupRetagBill groupNameInput groupColorInput now b
    else b)

/-- The local part of `handleDeleteSelected`: drop every selected id. -/
def handleDeleteSelectedLocal (selectedIds : List String)
    (allBills : List BillData) : List BillData :=
  allBills.filter (fun b => !selectedIds.contains b.id)

/-- `handleUpdateBill`: the edited record replaces every bill carrying its
id; the remote persist is fired asynchronously with a swallowing catch, so
neither the configured flag nor a persist failure touches the local map. -/
def handleUpdateBill (isConfigured persistFails : Bool) (updated : BillData)
    (store : List BillData) : List BillData :=
  store.map (fun b => if b.id = updated.id then updated else b)

/-- Calls made against remote storage by `saveBillToSupabase`, in order. -/
inductive StorageEvent
  | removeOld (path : String)
  | uploadImage (fileName : String)
  | upsertRecord
  | removeNew (path : String)
deriving DecidableEq

/-- How one `saveBillToSupabase` call ends towards its caller. -/
inductive SaveResult
  | saved
  | uploadFailed
  | upsertFailed
deriving DecidableEq

/-- Injected outcomes of the two fallible remote operations (the old-image
cleanup is caught and its outcome never observed). -/
structure GatewayOutcomes where
  uploadOk : Bool
  upsertOk : Bool
deriving DecidableEq

/-- Suffix strictly after the first occurrence of `sep` in `l`, if any. -/
def suffixAfterSep (sep : List Char) : List Char → Option (List Char)
  | [] => none
  | c :: rest =>
    if sep.isPrefixOf (c :: rest) then some ((c :: rest).drop sep.length)
    else suffixAfterSep sep rest

/-- The old-image path extraction of `saveBillToSupabase`:
`imageUrl.split('/receipts/')` must yield exactly two parts — one occurrence
of the bucket marker — and the storage path is the second part (the paths
this app writes contain no percent escapes, so `decodeURIComponent` is the
identity on them). -/
def bucketPathOf (imageUrl : String) : Option String :=
  match suffixAfterSep ("/receipts/").data imageUrl.data with
  | none => none
  | some suffix =>
    match suffixAfterSep ("/receipts/").data suffix with
    | some _ => none
    | none => some (String.mk suffix)

/-- The object name `saveBillToSupabase` uploads to. -/
def uploadFileName (bill : BillData) (now : Nat) : String :=
  bill.id ++ "_" ++ toString now ++ ".jpg"

/-- `saveBillToSupabase` with a configured client, as a trace semantics.
With a `data:` image payload it first best-effort removes the old bucket
image, then uploads the new object (throwing `uploadFailed` when the upload
errors), rewrites the record's `imageUrl` to the public URL (the URL shape
is the storage backend's, abstracted by `publicUrl`), then upserts the
record; a failing upsert removes the just-uploaded object and throws
`upsertFailed`.  Returned: result, call trace, record reaching the upsert. -/
def saveBillToSupabase (publicUrl : String → String) (bill : BillData)
    (imageBase64 : Option String) (now : Nat) (g : GatewayOutcomes) :
    SaveResult × List StorageEvent × BillData :=
  let hasImage :=
    match imageBase64 with
    | some payload => ("data:").data.isPrefixOf payload.data
    | none => false
  if hasImage then
    let cleanupEvents :=
      match bucketPathOf bill.imageUrl with
      | some oldPath => [StorageEvent.removeOld oldPath]
      | none => []
    let fileName := uploadFileName bill now
    if !g.uploadOk then
      (SaveResult.uploadFailed, cleanupEvents ++ [StorageEvent.uploadImage fileName], bill)
    else
      let finalBill := { bill with imageUrl := publicUrl fileName }
      if g.upsertOk then
        (SaveResult.saved,
         cleanupEvents ++ [StorageEvent.uploadImage fileName, StorageEvent.upsertRecord],
         finalBill)
      else
        (SaveResult.upsertFailed,
         cleanupEvents ++ [StorageEvent.uploadImage fileName, StorageEvent.upsertRecord,
           StorageEvent.removeNew fileName],
         finalBill)
  else
    if g.upsertOk then (SaveResult.saved, [StorageEvent.upsertRecord], bill)
    else (SaveResult.upsertFailed, [StorageEvent.upsertRecord], bill)

/-- One palette entry of `COLOR_PALETTE`. -/
structure ThemeEntry where
  name : String
  bg : String
  border : String
  text : String
  ring : String
deriving DecidableEq

/-- The fixed ten-entry colour palette of the storage service. -/
def COLOR_PALETTE : List ThemeEntry :=
  [ { name := "slate", bg := "bg-slate-50", border := "border-slate-200",
      text := "text-slate-900", ring := "ring-slate-500" },
    { name := "red", bg := "bg-red-50", border := "border-red-200",
      text := "text-red-900", ring := "ring-red-500" },
    { name := "orange", bg := "bg-orange-50", border := "border-orange-200",
      text := "text-orange-900", ring := "ring-orange-500" },
    { name := "amber", bg := "bg-amber-50", border := "border-amber-200",
      text := "text-amber-900", ring := "ring-amber-500" },
    { name := "green", bg := "bg-emerald-50", border := "border-emerald-200",
      text := "text-emerald-900", ring := "ring-emerald-500" },
    { name := "teal", bg := "bg-teal-50", border := "border-teal-200",
      text := "text-teal-900", ring := "ring-teal-500" },
    { name := "blue", bg := "bg-blue-50", border := "border-blue-200",
      text := "text-blue-900", ring := "ring-blue-500" },
    { name := "indigo", bg := "bg-indigo-50", border := "border-indigo-200",
      text := "text-indigo-900", ring := "ring-indigo-500" },
    { name := "purple", bg := "bg-purple-50", border := "border-purple-200",
      text := "text-purple-900", ring := "ring-purple-500" },
    { name := "pink", bg := "bg-pink-50", border := "border-pink-200",
      text := "text-pink-900", ring := "ring-pink-500" } ]

/-- Wrap an integer to the signed 32-bit range, the `ToInt32` conversion the
JavaScript `<<` operator applies to its operand and result. -/
def toInt32 (n : Int) : Int :=
  let m := n.emod 4294967296
  if m < 2147483648 then m else m - 4294967296

/-- One step of the rolling hash in `getThemeStyles`:
`hash = charCode + ((hash << 5) - hash)`, where the five-bit shift works on
32 bits but the surrounding sum does not wrap. -/
def hashStep (hash : Int) (code : Nat) : Int :=
  (code : Int) + (toInt32 (hash * 32) - hash)

/-- The character-code weighted rolling hash over a description. -/
def descriptionHash (s : String) : Int :=
  s.data.foldl (fun h c => hashStep h c.toNat) 0

/-- The palette index chosen for a description:
`Math.abs(hash) % COLOR_PALETTE.length`. -/
def hashIndex (s : String) : Nat :=
  (descriptionHash s).natAbs % COLOR_PALETTE.length

/-- The palette entry a description hashes to. -/
def themeForDescription (s : String) : ThemeEntry :=
  COLOR_PALETTE.get ⟨hashIndex s, Nat.mod_lt _ (by decide)⟩

/-- The palette's first, default entry. -/
def paletteDefault : ThemeEntry :=
  COLOR_PALETTE.get ⟨0, by decide⟩

/-- `getThemeStyles`: a truthy `colorName` found in the palette wins;
otherwise a truthy description with non-blank trim is hashed into the
palette; otherwise the palette's first entry. -/
def getThemeStyles (colorName : Option String) (description : Option String) : ThemeEntry :=
  let byName :=
    match colorName with
    | some n => if n != "" then COLOR_PALETTE.find? (fun c => c.name == n) else none
    | none => none
  match byName with
  | some found => found
  | none =>
    match description with
    | some d =>
        if (d != "") && (jsTrim d).length > 0 then themeForDescription d
        else paletteDefault
    | none => paletteDefault

/-- The packed-at discipline of the data model: a PACKED bill carries a
`packedAt`, a PENDING bill does not. -/
def billInvariant (b : BillData) : Prop :=
  (b.status = PackingStatus.PACKED → b.packedAt ≠ none) ∧
  (b.status = PackingStatus.PENDING → b.packedAt = none)

/-- The packed-at discipline over a whole store. -/
def storeInvariant (store : List BillData) : Prop :=
  ∀ b ∈ store, billInvariant b

instance (b : BillData) : Decidable (billInvariant b) := by
  unfold billInvariant
  infer_instance

instance (store : List BillData) : Decidable (storeInvariant store) := by
  unfold storeInvariant
  exact List.decidableBAll _ store

/-- A concrete record with the fields the closed instances below vary;
everything else takes the creation defaults. -/
def sampleBill (id invoiceNo entryDate : String) (status : PackingStatus)
    (createdAt : Nat) (packedAt : Option Nat) : BillData where
  id := id
  imageUrl := ""
  customerName := ""
  address := ""
  invoiceNo := invoiceNo
  billDate := ""
  status := status
  isDelivery := false
  hasCRN := false
  isEditedBill := false
  isAdditionalBill := false
  boxCount := 0
  description := ""
  colorTheme := none
  entryDate := entryDate
  createdAt := createdAt
  updatedAt := createdAt
  packedAt := packedAt

/-- A stored record whose invoice number carries trailing whitespace and
upper case. -/
def dupExisting : BillData :=
  sampleBill "d1" "INV-001 " "2024-01-01" PackingStatus.PENDING 1 none

/-- A freshly scanned record whose extracted invoice number matches
`dupExisting` once normalised. -/
def dupCandidate : BillData :=
  sampleBill "d2" "inv-001" "2024-01-02" PackingStatus.PENDING 2 none

/-- A record whose image already lives in the receipts bucket. -/
def cloudBill : BillData :=
  { sampleBill "c1" "INV-5" "2024-01-02" PackingStatus.PENDING 3 none with
    imageUrl := "https://proj.supabase.co/storage/v1/object/public/receipts/old.jpg" }

/-- An already packed record (packedAt 5). -/
def packedBill : BillData :=
  sampleBill "p1" "INV-7" "2024-01-01" PackingStatus.PACKED 1 (some 5)

/-- A pending record dated before the sample reference date. -/
def backlogSample : BillData :=
  sampleBill "s1" "INV-1" "2024-01-01" PackingStatus.PENDING 1 none

/-- A field edit of `backlogSample` (box count changed). -/
def editedSample : BillData :=
  { backlogSample with boxCount := 3 }

/-- A public-URL shape for the closed storage instances. -/
def publicUrlDemo : String → String :=
  fun fileName =>
    "https://proj.supabase.co/storage/v1/object/public/receipts/" ++ fileName

theorem stringDataInj : ∀ {a b : String}, a.data = b.data → a = b := by
  intro a b h
  cases a with
  | mk la =>
    cases b with
    | mk lb =>
      have hl : la = lb := h
      rw [hl]

theorem stringLengthPos (s : String) : 0 < s.length ↔ s ≠ "" := by
  cases s with
  | mk l =>
    show 0 < l.length ↔ _
    rw [List.length_pos]
    constructor
    · intro hl he
      have : l = [] := congrArg String.data he
      exact hl this
    · intro hs hl
      apply hs
      rw [hl]

theorem listFindEqHeadFilter {α : Type} (p : α → Bool) (l : List α) :
    l.find? p = (l.filter p).head? := by
  induction l with
  | nil => rfl
  | cons a as ih =>
    by_cases h : p a = true
    · rw [List.find?_cons_of_pos as h, List.filter_cons_of_pos h, List.head?_cons]
    · rw [List.find?_cons_of_neg as h, List.filter_cons_of_neg h, ih]

theorem jsLtChars_irrefl : ∀ l : List Char, jsLtChars l l = false := by
  intro l
  induction l with
  | nil => rfl
  | cons a as ih =>
    show (if a < a then true else if a < a then false else jsLtChars as as) = false
    rw [if_neg (lt_irrefl a), if_neg (lt_irrefl a), ih]

theorem jsLtChars_trans :
    ∀ x y z : List Char, jsLtChars x y = true → jsLtChars y z = true →
      jsLtChars x z = true := by
  intro x
  induction x with
  | nil =>
    intro y z hxy hyz
    cases z with
    | nil =>
      cases y with
      | nil => simpa [jsLtChars] using hxy
      | cons b bs => simp [jsLtChars] at hyz
    | cons c cs => simp [jsLtChars]
  | cons a as ih =>
    intro y z hxy hyz
    cases y with
    | nil => simp [jsLtChars] at hxy
    | cons b bs =>
      cases z with
      | nil => simp [jsLtChars] at hyz
      | cons c cs =>
        simp only [jsLtChars] at hxy hyz ⊢
        rcases lt_trichotomy a b with hab | hab | hab
        · rcases lt_trichotomy b c with hbc | hbc | hbc
          · simp [lt_trans hab hbc]
          · subst hbc
            simp [hab]
          · rw [if_neg (asymm hbc), if_pos hbc] at hyz
            exact absurd hyz (by simp)
        · subst hab
          rw [if_neg (lt_irrefl a), if_neg (lt_irrefl a)] at hxy
          rcases lt_trichotomy a c with hac | hac | hac
          · simp [hac]
          · subst hac
            rw [if_neg (lt_irrefl a), if_neg (lt_irrefl a)] at hyz ⊢
            exact ih bs cs hxy hyz
          · rw [if_neg (asymm hac), if_pos hac] at hyz
            exact absurd hyz (by simp)
        · rw [if_neg (asymm hab), if_pos hab] at hxy
          exact absurd hxy (by simp)

theorem jsLtChars_asymm {x y : List Char} (h : jsLtChars x y = true) :
    jsLtChars y x = false := by
  by_contra hc
  rw [Bool.not_eq_false] at hc
  have := jsLtChars_trans x y x h hc
  rw [jsLtChars_irrefl] at this
  exact absurd this (by simp)

theorem jsLtChars_connex :
    ∀ x y : List Char, jsLtChars x y = false → jsLtChars y x = false → x = y := by
  intro x
  induction x with
  | nil =>
    intro y hxy _
    cases y with
    | nil => rfl
    | cons b bs => simp [jsLtChars] at hxy
  | cons a as ih =>
    intro y hxy hyx
    cases y with
    | nil => simp [jsLtChars] at hyx
    | cons b bs =>
      simp only [jsLtChars] at hxy hyx
      rcases lt_trichotomy a b with hab | hab | hab
      · rw [if_pos hab] at hxy
        exact absurd hxy (by simp)
      · subst hab
        rw [if_neg (lt_irrefl a), if_neg (lt_irrefl a)] at hxy hyx
        rw [ih bs hxy hyx]
      · rw [if_pos hab] at hyx
        exact absurd hyx (by simp)

theorem jsStrLt_irrefl (s : String) : jsStrLt s s = false :=
  jsLtChars_irrefl s.data

theorem jsStrLt_asymm {a b : String} (h : jsStrLt a b = true) : jsStrLt b a = false :=
  jsLtChars_asymm h

theorem jsStrLt_trans {a b c : String} (hab : jsStrLt a b = true)
    (hbc : jsStrLt b c = true) : jsStrLt a c = true :=
  jsLtChars_trans a.data b.data c.data hab hbc

theorem jsStrLt_connex {a b : String} (hab : jsStrLt a b = false)
    (hba : jsStrLt b a = false) : a = b :=
  stringDataInj (jsLtChars_connex a.data b.data hab hba)

theorem jsStrLe_total (a b : String) : jsStrLe a b = true ∨ jsStrLe b a = true := by
  cases hba : jsStrLt b a with
  | false =>
    refine Or.inl ?_
    show (!jsStrLt b a) = true
    rw [hba]
    rfl
  | true =>
    refine Or.inr ?_
    show (!jsStrLt a b) = true
    rw [jsStrLt_asymm hba]
    rfl

theorem jsStrLe_trans {a b c : String} (hab : jsStrLe a b = true)
    (hbc : jsStrLe b c = true) : jsStrLe a c = true := by
  have hab' : jsStrLt b a = false := by
    have : (!jsStrLt b a) = true := hab
    cases h : jsStrLt b a with
    | false => rfl
    | true => rw [h] at this; exact absurd this (by simp)
  have hbc' : jsStrLt c b = false := by
    have : (!jsStrLt c b) = true := hbc
    cases h : jsStrLt c b with
    | false => rfl
    | true => rw [h] at this; exact absurd this (by simp)
  show (!jsStrLt c a) = true
  cases hca : jsStrLt c a with
  | false => rfl
  | true =>
    exfalso
    cases hbc2 : jsStrLt b c with
    | true =>
      have := jsStrLt_trans hbc2 hca
      rw [hab'] at this
      exact absurd this (by simp)
    | false =>
      have hbeq : b = c := jsStrLt_connex hbc2 hbc'
      subst hbeq
      rw [hca] at hab'
      exact absurd hab' (by simp)

theorem jsStrLe_iff (a b : String) :
    jsStrLe a b = true ↔ (jsStrLt a b = true ∨ a = b) := by
  constructor
  · intro h
    have h' : jsStrLt b a = false := by
      have h2 : (!jsStrLt b a) = true := h
      cases hh : jsStrLt b a with
      | false => rfl
      | true => rw [hh] at h2; exact absurd h2 (by simp)
    cases hab : jsStrLt a b with
    | true => exact Or.inl rfl
    | false => exact Or.inr (jsStrLt_connex hab h')
  · rintro (h | h)
    · show (!jsStrLt b a) = true
      rw [jsStrLt_asymm h]
      rfl
    · subst h
      show (!jsStrLt a a) = true
      rw [jsStrLt_irrefl a]
      rfl

/-- C1: creating a bill with a configured backend whose `persist` throws
rolls the optimistic insert fully back: the local store is the one from
before the attempt, so the count is unchanged and every pre-existing bill
is still present.  The generated id is fresh for the store, as the
collision-avoiding `generateId` provides. -/
theorem createBill_persistFailure_rollback (store : List BillData) (newBill : BillData)
    (hfresh : ∀ b ∈ store, b.id ≠ newBill.id) :
    createBillStore true true newBill store = store ∧
    (createBillStore true true newBill store).length = store.length ∧
    ∀ b ∈ store, b ∈ createBillStore true true newBill store := by
  have h1 : createBillStore true true newBill store = store := by
    show (newBill :: store).filter (fun b => b.id != newBill.id) = store
    rw [List.filter_cons]
    simp only [bne_self_eq_false, Bool.false_eq_true, if_neg, ite_false]
    exact List.filter_eq_self.mpr fun b hb => bne_iff_ne.mpr (hfresh b hb)
  exact ⟨h1, by rw [h1], by rw [h1]; exact fun b hb => hb⟩

/-- C1, closed instance: a failing persist on a two-bill store leaves both
bills and only them. -/
theorem createBill_persistFailure_rollback_witness :
    createBillStore true true (sampleBill "n1" "INV-9" "2024-01-02" PackingStatus.PENDING 7 none)
        [sampleBill "a1" "INV-1" "2024-01-01" PackingStatus.PENDING 1 none,
         sampleBill "a2" "INV-2" "2024-01-01" PackingStatus.PENDING 2 none] =
      [sampleBill "a1" "INV-1" "2024-01-01" PackingStatus.PENDING 1 none,
       sampleBill "a2" "INV-2" "2024-01-01" PackingStatus.PENDING 2 none] :=
  (createBill_persistFailure_rollback _ _ (by decide)).1

/-- C2: duplicate detection trims and case-folds; an empty normalised
candidate never matches; a match returns the first stored bill (in
insertion order) whose normalised invoice equals the candidate, and the
attempt halts with the store untouched and no remote persist attempted. -/
theorem findDuplicate_first_match_halts (isConfigured persistFails : Bool)
    (store : List BillData) (newBill : BillData) :
    (normalizeInvoice newBill.invoiceNo = "" →
        findDuplicate store newBill.invoiceNo = none) ∧
    (normalizeInvoice newBill.invoiceNo ≠ "" →
        findDuplicate store newBill.invoiceNo =
          (store.filter (fun b =>
            normalizeInvoice b.invoiceNo == normalizeInvoice newBill.invoiceNo)).head?) ∧
    (∀ existing, findDuplicate store newBill.invoiceNo = some existing →
        handleAddBill isConfigured persistFails true store newBill =
          (AddOutcome.duplicateAlert existing, store, false)) := by
  refine ⟨?_, ?_, ?_⟩
  · intro h
    by_cases hc : newBill.invoiceNo = ""
    · simp [findDuplicate, hc]
    · have hb1 : (newBill.invoiceNo != "") = true := bne_iff_ne.mpr hc
      have hlen : (normalizeInvoice newBill.invoiceNo).length = 0 := by
        rw [h]
        decide
      simp [findDuplicate, hb1, hlen]
  · intro h
    have hc : newBill.invoiceNo ≠ "" := by
      intro e
      apply h
      rw [e]
      rfl
    have hb1 : (newBill.invoiceNo != "") = true := bne_iff_ne.mpr hc
    have hlen : 0 < (normalizeInvoice newBill.invoiceNo).length :=
      (stringLengthPos _).mpr h
    have hpred : ∀ b : BillData,
        ((b.invoiceNo != "") &&
            (normalizeInvoice b.invoiceNo == normalizeInvoice newBill.invoiceNo)) =
          (normalizeInvoice b.invoiceNo == normalizeInvoice newBill.invoiceNo) := by
      intro b
      by_cases hb : b.invoiceNo = ""
      · have hnb : normalizeInvoice b.invoiceNo = "" := by
          rw [hb]
          decide
        have hfalse :
            (normalizeInvoice b.invoiceNo == normalizeInvoice newBill.invoiceNo) = false := by
          rw [hnb]
          exact beq_eq_false_iff_ne.mpr (Ne.symm h)
        rw [hfalse, hb]
        simp
      · rw [bne_iff_ne.mpr hb, Bool.true_and]
    calc findDuplicate store newBill.invoiceNo
        = store.find? (fun b =>
            (b.invoiceNo != "") &&
              (normalizeInvoice b.invoiceNo == normalizeInvoice newBill.invoiceNo)) := by
          simp [findDuplicate, hb1, hlen]
      _ = store.find? (fun b =>
            normalizeInvoice b.invoiceNo == normalizeInvoice newBill.invoiceNo) := by
          congr 1
          funext b
          exact hpred b
      _ = _ := listFindEqHeadFilter _ _
  · intro existing hdup
    simp [handleAddBill, hdup]

/-- C2, closed instance: scanning invoice "inv-001" against a store holding
invoice "INV-001 " reports that stored bill and halts with the store
untouched and no remote call. -/
theorem findDuplicate_first_match_halts_witness :
    handleAddBill true false true [dupExisting] dupCandidate =
      (AddOutcome.duplicateAlert dupExisting, [dupExisting], false) :=
  (findDuplicate_first_match_halts true false [dupExisting] dupCandidate).2.2
    dupExisting (by decide)

/-- C3: for a fixed reference date the today view collects exactly the bills
dated on it and the backlog view exactly the PENDING bills dated strictly
before it; the views are disjoint; their union is the PENDING bills dated on
or before the reference date together with all bills dated exactly on it;
the today view is sorted by createdAt descending, the backlog view by
entryDate ascending. -/
theorem todayBacklog_partition (allBills : List BillData) (currentDate : String) :
    (∀ b, b ∈ todayNewBills allBills currentDate ↔
        b ∈ allBills ∧ b.entryDate = currentDate) ∧
    (∀ b, b ∈ backlogBills allBills currentDate ↔
        b ∈ allBills ∧ b.status = PackingStatus.PENDING ∧
          jsStrLt b.entryDate currentDate = true) ∧
    (∀ b, ¬ (b ∈ todayNewBills allBills currentDate ∧
        b ∈ backlogBills allBills currentDate)) ∧
    (∀ b, (b ∈ todayNewBills allBills currentDate ∨
          b ∈ backlogBills allBills currentDate) ↔
        (b ∈ allBills ∧
          ((b.status = PackingStatus.PENDING ∧ jsStrLe b.entryDate currentDate = true) ∨
            b.entryDate = currentDate))) ∧
    List.Sorted (fun a b => b.createdAt ≤ a.createdAt)
      (todayNewBills allBills currentDate) ∧
    List.Sorted (fun a b => jsStrLe a.entryDate b.entryDate = true)
      (backlogBills allBills currentDate) := by
  have hmemT : ∀ b, b ∈ todayNewBills allBills currentDate ↔
      b ∈ allBills ∧ b.entryDate = currentDate := by
    intro b
    unfold todayNewBills
    rw [List.mem_insertionSort, List.mem_filter]
    simp
  have hmemB : ∀ b, b ∈ backlogBills allBills currentDate ↔
      b ∈ allBills ∧ b.status = PackingStatus.PENDING ∧
        jsStrLt b.entryDate currentDate = true := by
    intro b
    unfold backlogBills
    rw [List.mem_insertionSort, List.mem_filter]
    simp [Bool.and_eq_true]
  refine ⟨hmemT, hmemB, ?_, ?_, ?_, ?_⟩
  · intro b ⟨ht, hb⟩
    have he : b.entryDate = currentDate := (hmemT b).mp ht |>.2
    have hlt : jsStrLt b.entryDate currentDate = true := ((hmemB b).mp hb).2.2
    rw [he, jsStrLt_irrefl] at hlt
    exact absurd hlt (by simp)
  · intro b
    constructor
    · rintro (ht | hb)
      · exact ⟨((hmemT b).mp ht).1, Or.inr ((hmemT b).mp ht).2⟩
      · obtain ⟨hm, hp, hlt⟩ := (hmemB b).mp hb
        exact ⟨hm, Or.inl ⟨hp, (jsStrLe_iff _ _).mpr (Or.inl hlt)⟩⟩
    · rintro ⟨hmem, (⟨hp, hle⟩ | heq)⟩
      · rcases (jsStrLe_iff _ _).mp hle with hlt | heq2
        · exact Or.inr ((hmemB b).mpr ⟨hmem, hp, hlt⟩)
        · exact Or.inl ((hmemT b).mpr ⟨hmem, heq2⟩)
      · exact Or.inl ((hmemT b).mpr ⟨hmem, heq⟩)
  · haveI i1 : IsTotal BillData (fun a b => b.createdAt ≤ a.createdAt) :=
      ⟨fun a b => Nat.le_total b.createdAt a.createdAt⟩
    haveI i2 : IsTrans BillData (fun a b => b.createdAt ≤ a.createdAt) :=
      ⟨fun _ _ _ hab hbc => le_trans hbc hab⟩
    exact List.sorted_insertionSort _ _
  · haveI i1 : IsTotal BillData (fun a b => jsStrLe a.entryDate b.entryDate = true) :=
      ⟨fun a b => jsStrLe_total a.entryDate b.entryDate⟩
    haveI i2 : IsTrans BillData (fun a b => jsStrLe a.entryDate b.entryDate = true) :=
      ⟨fun _ _ _ hab hbc => jsStrLe_trans hab hbc⟩
    exact List.sorted_insertionSort _ _

/-- C3, closed instance: a pending bill dated 2024-01-01 viewed on
2024-01-03 sits in the backlog view and the today view is empty. -/
theorem todayBacklog_partition_witness :
    backlogSample ∈ backlogBills [backlogSample] "2024-01-03" ∧
    todayNewBills [backlogSample] "2024-01-03" = [] :=
  ⟨((todayBacklog_partition [backlogSample] "2024-01-03").2.1 backlogSample).mpr
      (by decide), by decide⟩

/-- C4: bulk pack over a selection of PENDING bills re-writes exactly the
selected bills to PACKED with the one batch timestamp in `packedAt` and
`updatedAt`, leaves every unselected bill untouched in every field, and the
number of PACKED bills grows by exactly the number of selected bills. -/
theorem handlePackSelected_spec (selectedIds : List String) (now : Nat)
    (allBills : List BillData)
    (hpend : ∀ b ∈ allBills, selectedIds.contains b.id = true →
        b.status = PackingStatus.PENDING) :
    List.Forall₂ (fun b b' =>
        (selectedIds.contains b.id = true → b' = packBill now b) ∧
        (selectedIds.contains b.id = false → b' = b))
      allBills (handlePackSelected selectedIds now allBills) ∧
    ((handlePackSelected selectedIds now allBills).filter
        (fun b => b.status == PackingStatus.PACKED)).length =
      (allBills.filter (fun b => b.status == PackingStatus.PACKED)).length +
        (allBills.filter (fun b => selectedIds.contains b.id)).length ∧
    ∀ b' ∈ handlePackSelected selectedIds now allBills,
        selectedIds.contains b'.id = true →
          b'.status = PackingStatus.PACKED ∧ b'.packedAt = some now ∧
            b'.updatedAt = now := by
  refine ⟨?_, ?_, ?_⟩
  · clear hpend
    induction allBills with
    | nil => exact List.Forall₂.nil
    | cons a as ih =>
      refine List.Forall₂.cons ⟨?_, ?_⟩ ih
      · intro hsel
        show (if selectedIds.contains a.id = true then packBill now a else a) =
          packBill now a
        rw [if_pos hsel]
      · intro hsel
        show (if selectedIds.contains a.id = true then packBill now a else a) = a
        rw [if_neg (by rw [hsel]; exact Bool.false_ne_true)]
  · induction allBills with
    | nil => rfl
    | cons a as ih =>
      have hrest : ∀ b ∈ as, selectedIds.contains b.id = true →
          b.status = PackingStatus.PENDING :=
        fun b hb hs => hpend b (List.mem_cons_of_mem a hb) hs
      have ih' := ih hrest
      show (List.filter (fun b => b.status == PackingStatus.PACKED)
          ((if selectedIds.contains a.id = true then packBill now a else a) ::
            handlePackSelected selectedIds now as)).length =
        (List.filter (fun b => b.status == PackingStatus.PACKED) (a :: as)).length +
          (List.filter (fun b => selectedIds.contains b.id) (a :: as)).length
      cases hsel : selectedIds.contains a.id with
      | true =>
        have hstat : a.status = PackingStatus.PENDING :=
          hpend a (List.mem_cons_self a as) hsel
        rw [if_pos rfl]
        rw [@List.filter_cons_of_pos _ _ _ (handlePackSelected selectedIds now as)
            (by simp [packBill]),
          @List.filter_cons_of_neg _ _ _ as (by simp [hstat]),
          @List.filter_cons_of_pos _ _ _ as (by exact hsel)]
        simp only [List.length_cons]
        omega
      | false =>
        rw [if_neg (by exact Bool.false_ne_true)]
        rw [@List.filter_cons_of_neg _ (fun b => selectedIds.contains b.id) _ as
          (by intro hcontra
              have h2 : selectedIds.contains a.id = true := hcontra
              exact Bool.false_ne_true (hsel.symm.trans h2))]
        by_cases hpk : a.status = PackingStatus.PACKED
        · rw [@List.filter_cons_of_pos _ _ _ (handlePackSelected selectedIds now as)
              (by simp [hpk]),
            @List.filter_cons_of_pos _ _ _ as (by simp [hpk])]
          simp only [List.length_cons]
          omega
        · rw [@List.filter_cons_of_neg _ _ _ (handlePackSelected selectedIds now as)
              (by simp [hpk]),
            @List.filter_cons_of_neg _ _ _ as (by simp [hpk])]
          omega
  · intro b' hb' hsel'
    obtain ⟨a, ha, heq⟩ := List.mem_map.mp hb'
    cases hca : selectedIds.contains a.id with
    | true =>
      rw [if_pos (by rw [hca])] at heq
      rw [← heq]
      exact ⟨rfl, rfl, rfl⟩
    | false =>
      rw [if_neg (by rw [hca]; exact Bool.false_ne_true)] at heq
      rw [← heq] at hsel'
      rw [hca] at hsel'
      exact absurd hsel' (by simp)

/-- C4, closed instance: packing the one pending selected bill of a
two-bill store raises the PACKED count by exactly one. -/
theorem handlePackSelected_spec_witness :
    ((handlePackSelected ["s1"] 9 [backlogSample, packedBill]).filter
        (fun b => b.status == PackingStatus.PACKED)).length =
      ([backlogSample, packedBill].filter
        (fun b => b.status == PackingStatus.PACKED)).length +
        ([backlogSample, packedBill].filter
          (fun b => ["s1"].contains b.id)).length :=
  (handlePackSelected_spec ["s1"] 9 [backlogSample, packedBill] (by decide)).2.1

/-- C5 fails on the code: `saveBillToSupabase` deletes the prior bucket
image first ("delete it first to save space"), so in a run whose upload
errors the old image is already removed although the new upload never
completed successfully. -/
theorem saveBill_removesOld_despite_uploadFailure :
    (saveBillToSupabase publicUrlDemo cloudBill
        (some "data:image/jpeg;AAA") 5 ⟨false, true⟩).1 = SaveResult.uploadFailed ∧
    StorageEvent.removeOld "old.jpg" ∈
      (saveBillToSupabase publicUrlDemo cloudBill
        (some "data:image/jpeg;AAA") 5 ⟨false, true⟩).2.1 := by
  decide

/-- C5 amended: with an image payload and a prior image in the receipts
bucket, the old image is removed first — before the upload is attempted —
regardless of the upload's or the upsert's outcome; the upload call then
follows in the trace. -/
theorem saveBill_removesOldImage_first (publicUrl : String → String)
    (bill : BillData) (payload : String) (now : Nat) (g : GatewayOutcomes)
    (oldPath : String)
    (hdata : ("data:").data.isPrefixOf payload.data = true)
    (hold : bucketPathOf bill.imageUrl = some oldPath) :
    (saveBillToSupabase publicUrl bill (some payload) now g).2.1.head? =
      some (StorageEvent.removeOld oldPath) ∧
    StorageEvent.uploadImage (uploadFileName bill now) ∈
      (saveBillToSupabase publicUrl bill (some payload) now g).2.1.tail := by
  obtain ⟨u, p⟩ := g
  simp only [saveBillToSupabase, hdata, hold]
  cases u <;> cases p <;> simp

/-- C5 amended, closed instance: even in a fully successful run the trace
starts with the removal of the old image, then uploads. -/
theorem saveBill_removesOldImage_first_witness :
    (saveBillToSupabase publicUrlDemo cloudBill (some "data:image/jpeg;AAA") 5
        ⟨true, true⟩).2.1.head? = some (StorageEvent.removeOld "old.jpg") ∧
    StorageEvent.uploadImage (uploadFileName cloudBill 5) ∈
      (saveBillToSupabase publicUrlDemo cloudBill (some "data:image/jpeg;AAA") 5
        ⟨true, true⟩).2.1.tail :=
  saveBill_removesOldImage_first publicUrlDemo cloudBill "data:image/jpeg;AAA" 5
    ⟨true, true⟩ "old.jpg" (by decide) (by decide)

/-- C6: when the image upload succeeds and the record upsert fails, the
persist call removes the just-uploaded object again (after the upload and
the upsert attempt, so no orphan remains) and surfaces the failure by
throwing `upsertFailed`. -/
theorem saveBill_upsertFailure_removesUpload (publicUrl : String → String)
    (bill : BillData) (payload : String) (now : Nat)
    (hdata : ("data:").data.isPrefixOf payload.data = true) :
    (saveBillToSupabase publicUrl bill (some payload) now ⟨true, false⟩).1 =
      SaveResult.upsertFailed ∧
    (saveBillToSupabase publicUrl bill (some payload) now ⟨true, false⟩).2.1 =
      (match bucketPathOf bill.imageUrl with
        | some oldPath => [StorageEvent.removeOld oldPath]
        | none => []) ++
        [StorageEvent.uploadImage (uploadFileName bill now),
         StorageEvent.upsertRecord,
         StorageEvent.removeNew (uploadFileName bill now)] := by
  simp only [saveBillToSupabase, hdata]
  cases hold : bucketPathOf bill.imageUrl <;> simp

/-- C6, closed instance: a failing upsert after a successful upload ends in
`upsertFailed` with the uploaded object removed at the end of the trace. -/
theorem saveBill_upsertFailure_removesUpload_witness :
    (saveBillToSupabase publicUrlDemo cloudBill (some "data:image/jpeg;AAA") 5
        ⟨true, false⟩).1 = SaveResult.upsertFailed ∧
    (saveBillToSupabase publicUrlDemo cloudBill (some "data:image/jpeg;AAA") 5
        ⟨true, false⟩).2.1 =
      (match bucketPathOf cloudBill.imageUrl with
        | some oldPath => [StorageEvent.removeOld oldPath]
        | none => []) ++
        [StorageEvent.uploadImage (uploadFileName cloudBill 5),
         StorageEvent.upsertRecord,
         StorageEvent.removeNew (uploadFileName cloudBill 5)] :=
  saveBill_upsertFailure_removesUpload publicUrlDemo cloudBill "data:image/jpeg;AAA" 5
    (by decide)

/-- C7 fails on the code: bulk pack re-stamps `packedAt` of a selected bill
that is already PACKED — here packedAt moves from 5 to the new batch
timestamp 10, so packedAt is not written only once. -/
theorem packSelected_overwrites_packedAt :
    packedBill.status = PackingStatus.PACKED ∧ packedBill.packedAt = some 5 ∧
    (handlePackSelected ["p1"] 10 [packedBill]).map (fun b => b.packedAt) =
      [some 10] := by
  decide

/-- C7 amended: creation, bulk pack, group re-tag and delete preserve the
discipline that a PACKED bill carries `packedAt` and a PENDING bill does
not, and edit preserves it whenever the edited record itself satisfies it;
`packedAt` is written by the pack path alone, which stamps every selected
bill — including one already PACKED — with the batch timestamp and never
touches an unselected bill's `packedAt`. -/
theorem lifecycle_packedAt_invariant :
    (∀ newId extracted mb md date now cfg img,
        billInvariant (mkNewBill newId extracted mb md date now cfg img)) ∧
    (∀ cfg pf nb store, billInvariant nb → storeInvariant store →
        storeInvariant (createBillStore cfg pf nb store)) ∧
    (∀ sel now store, storeInvariant store →
        storeInvariant (handlePackSelected sel now store)) ∧
    (∀ sel now store,
        List.Forall₂ (fun b b' =>
          (sel.contains b.id = false → b'.packedAt = b.packedAt) ∧
          (sel.contains b.id = true → b'.packedAt = some now))
          store (handlePackSelected sel now store)) ∧
    (∀ sel nameInput colorInput now store, storeInvariant store →
        storeInvariant (applyGroupSettings sel nameInput colorInput now store)) ∧
    (∀ sel store, storeInvariant store →
        storeInvariant (handleDeleteSelectedLocal sel store)) ∧
    (∀ cfg pf updated store, billInvariant updated → storeInvariant store →
        storeInvariant (handleUpdateBill cfg pf updated store)) := by
  refine ⟨?_, ?_, ?_, ?_, ?_, ?_, ?_⟩
  · intro newId extracted mb md date now cfg img
    exact ⟨fun h => absurd h (by simp [mkNewBill]), fun _ => rfl⟩
  · intro cfg pf nb store hnb hstore b hb
    have hmem : b ∈ nb :: store := by
      cases cfg with
      | false => exact hb
      | true =>
        cases pf with
        | false => exact hb
        | true => exact (List.mem_filter.mp hb).1
    rcases List.mem_cons.mp hmem with h | h
    · rw [h]
      exact hnb
    · exact hstore b h
  · intro sel now store hstore b' hb'
    obtain ⟨a, ha, heq⟩ := List.mem_map.mp hb'
    cases hca : sel.contains a.id with
    | true =>
      rw [if_pos (by rw [hca])] at heq
      rw [← heq]
      exact ⟨fun _ => by simp [packBill], fun h => absurd h (by simp [packBill])⟩
    | false =>
      rw [if_neg (by rw [hca]; exact Bool.false_ne_true)] at heq
      rw [← heq]
      exact hstore a ha
  · intro sel now store
    induction store with
    | nil => exact List.Forall₂.nil
    | cons a as ih =>
      refine List.Forall₂.cons ⟨?_, ?_⟩ ih
      · intro hsel
        show (if sel.contains a.id = true then packBill now a else a).packedAt =
          a.packedAt
        rw [if_neg (by rw [hsel]; exact Bool.false_ne_true)]
      · intro hsel
        show (if sel.contains a.id = true then packBill now a else a).packedAt =
          some now
        rw [if_pos hsel]
        rfl
  · intro sel nameInput colorInput now store hstore b' hb'
    obtain ⟨a, ha, heq⟩ := List.mem_map.mp hb'
    cases hca : sel.contains a.id with
    | true =>
      rw [if_pos (by rw [hca])] at heq
      rw [← heq]
      exact hstore a ha
    | false =>
      rw [if_neg (by rw [hca]; exact Bool.false_ne_true)] at heq
      rw [← heq]
      exact hstore a ha
  · intro sel store hstore b hb
    exact hstore b (List.mem_of_mem_filter hb)
  · intro cfg pf updated store hupd hstore b' hb'
    obtain ⟨a, ha, heq⟩ := List.mem_map.mp hb'
    by_cases hid : a.id = updated.id
    · rw [if_pos hid] at heq
      rw [← heq]
      exact hupd
    · rw [if_neg hid] at heq
      rw [← heq]
      exact hstore a ha

/-- C7 amended, closed instance: packing the pending bill of a singleton
store preserves the packed-at discipline. -/
theorem lifecycle_packedAt_invariant_witness :
    storeInvariant (handlePackSelected ["s1"] 9 [backlogSample]) :=
  lifecycle_packedAt_invariant.2.2.1 ["s1"] 9 [backlogSample] (by decide)

/-- C8: theme resolution priority — a colour name found in the palette wins;
otherwise a non-blank description is hashed by the character-code weighted
rolling hash into the fixed ten-entry palette (equal descriptions give equal
entries, the index always lies inside the palette); otherwise the palette's
first entry. -/
theorem getThemeStyles_priority :
    (∀ n d e, COLOR_PALETTE.find? (fun c => c.name == n) = some e →
        getThemeStyles (some n) d = e) ∧
    (∀ n d, COLOR_PALETTE.find? (fun c => c.name == n) = none →
        0 < (jsTrim d).length →
        getThemeStyles (some n) (some d) = themeForDescription d) ∧
    (∀ d, 0 < (jsTrim d).length →
        getThemeStyles none (some d) = themeForDescription d) ∧
    (∀ d, hashIndex d < COLOR_PALETTE.length) ∧
    COLOR_PALETTE.length = 10 ∧
    getThemeStyles none none = paletteDefault ∧
    (∀ d, (jsTrim d).length = 0 → getThemeStyles none (some d) = paletteDefault) ∧
    (∀ d₁ d₂, d₁ = d₂ →
        getThemeStyles none (some d₁) = getThemeStyles none (some d₂)) := by
  have hblank : ∀ d : String, 0 < (jsTrim d).length → (d != "") = true := by
    intro d hd
    cases hde : d == "" with
    | false => simp [bne, hde]
    | true =>
      have : d = "" := by exact beq_iff_eq.mp hde
      rw [this] at hd
      exact absurd hd (by decide)
  refine ⟨?_, ?_, ?_, ?_, rfl, rfl, ?_, ?_⟩
  · intro n d e h
    by_cases hn : n = ""
    · rw [hn] at h
      have hnone : COLOR_PALETTE.find? (fun c => c.name == "") = none := by decide
      rw [hnone] at h
      cases h
    · simp [getThemeStyles, bne_iff_ne.mpr hn, h]
  · intro n d hfind hd
    by_cases hn : n = ""
    · simp [getThemeStyles, hn, hblank d hd, hd]
    · simp [getThemeStyles, bne_iff_ne.mpr hn, hfind, hblank d hd, hd]
  · intro d hd
    simp [getThemeStyles, hblank d hd, hd]
  · intro d
    exact Nat.mod_lt _ (by decide)
  · intro d hd
    simp [getThemeStyles, hd]
  · intro d₁ d₂ h
    rw [h]

/-- C8, closed instance: an exact palette name wins, and a sample
description hashes deterministically into the palette. -/
theorem getThemeStyles_priority_witness :
    getThemeStyles (some "teal") (some "Area 51 Shops") =
      { name := "teal", bg := "bg-teal-50", border := "border-teal-200",
        text := "text-teal-900", ring := "ring-teal-500" } ∧
    getThemeStyles none (some "Area 51 Shops") =
      themeForDescription "Area 51 Shops" :=
  ⟨getThemeStyles_priority.1 "teal" (some "Area 51 Shops") _ (by decide),
   getThemeStyles_priority.2.2.1 "Area 51 Shops" (by decide)⟩

/-- C9: an edit replaces exactly the bill carrying the edited id in the
local store and keeps every other bill; the asynchronously fired remote
persist is swallowed, so the local store is identical whether that persist
fails or succeeds. -/
theorem handleUpdateBill_local_edit (isConfigured pf pf2 : Bool)
    (updated : BillData) (store : List BillData) :
    (∀ b ∈ handleUpdateBill isConfigured pf updated store,
        b.id = updated.id → b = updated) ∧
    (∀ b ∈ store, b.id ≠ updated.id →
        b ∈ handleUpdateBill isConfigured pf updated store) ∧
    ((∃ b ∈ store, b.id = updated.id) →
        updated ∈ handleUpdateBill isConfigured pf updated store) ∧
    handleUpdateBill isConfigured pf updated store =
      handleUpdateBill isConfigured pf2 updated store ∧
    (handleUpdateBill isConfigured pf updated store).length = store.length := by
  refine ⟨?_, ?_, ?_, rfl, List.length_map _ _⟩
  · intro b hb hid
    obtain ⟨a, ha, heq⟩ := List.mem_map.mp hb
    by_cases h : a.id = updated.id
    · rw [if_pos h] at heq
      exact heq.symm
    · rw [if_neg h] at heq
      rw [← heq] at hid
      exact absurd hid h
  · intro b hb hne
    exact List.mem_map.mpr ⟨b, hb, if_neg hne⟩
  · rintro ⟨b, hb, hid⟩
    exact List.mem_map.mpr ⟨b, hb, if_pos hid⟩
  -- remaining conjuncts closed by the refine

/-- C9, closed instance: the edited record lands in the store and a failing
persist yields the same local store as a succeeding one. -/
theorem handleUpdateBill_local_edit_witness :
    editedSample ∈ handleUpdateBill true true editedSample [backlogSample] ∧
    handleUpdateBill true true editedSample [backlogSample] =
      handleUpdateBill true false editedSample [backlogSample] :=
  ⟨(handleUpdateBill_local_edit true true false editedSample [backlogSample]).2.2.1
      ⟨backlogSample, by decide, by decide⟩,
   (handleUpdateBill_local_edit true true false editedSample [backlogSample]).2.2.2.1⟩

/-- C10: group re-tag touches exactly the selected bills, and on those only
description, colorTheme and updatedAt; every other field of a selected bill
and every field of an unselected bill survive unchanged; choosing no colour
stores `colorTheme` as absent. -/
theorem applyGroupSettings_frame (selectedIds : List String)
    (groupNameInput groupColorInput : String) (now : Nat)
    (allBills : List BillData) :
    (applyGroupSettings selectedIds groupNameInput groupColorInput now allBills).length
      = allBills.length ∧
    List.Forall₂ (fun b b' =>
        (selectedIds.contains b.id = false → b' = b) ∧
        (selectedIds.contains b.id = true →
          b'.description = groupNameInput ∧
          b'.colorTheme =
            (if groupColorInput = "" then none else some groupColorInput) ∧
          b'.updatedAt = now ∧
          b'.id = b.id ∧ b'.imageUrl = b.imageUrl ∧
          b'.customerName = b.customerName ∧ b'.address = b.address ∧
          b'.invoiceNo = b.invoiceNo ∧ b'.billDate = b.billDate ∧
          b'.status = b.status ∧ b'.isDelivery = b.isDelivery ∧
          b'.hasCRN = b.hasCRN ∧ b'.isEditedBill = b.isEditedBill ∧
          b'.isAdditionalBill = b.isAdditionalBill ∧ b'.boxCount = b.boxCount ∧
          b'.entryDate = b.entryDate ∧ b'.createdAt = b.createdAt ∧
          b'.packedAt = b.packedAt))
      allBills
      (applyGroupSettings selectedIds groupNameInput groupColorInput now allBills) := by
  refine ⟨List.length_map _ _, ?_⟩
  induction allBills with
  | nil => exact List.Forall₂.nil
  | cons a as ih =>
    refine List.Forall₂.cons ⟨?_, ?_⟩ ih
    · intro hsel
      show (if selectedIds.contains a.id = true then
          groupRetagBill groupNameInput groupColorInput now a else a) = a
      rw [if_neg (by rw [hsel]; exact Bool.false_ne_true)]
    · intro hsel
      show (if selectedIds.contains a.id = true then
          groupRetagBill groupNameInput groupColorInput now a else a).description = groupNameInput ∧
        (if selectedIds.contains a.id = true then
          groupRetagBill groupNameInput groupColorInput now a else a).colorTheme =
          (if groupColorInput = "" then none else some groupColorInput) ∧
        (if selectedIds.contains a.id = true then
          groupRetagBill groupNameInput groupColorInput now a else a).updatedAt = now ∧
        (if selectedIds.contains a.id = true then
          groupRetagBill groupNameInput groupColorInput now a else a).id = a.id ∧
        (if selectedIds.contains a.id = true then
          groupRetagBill groupNameInput groupColorInput now a else a).imageUrl = a.imageUrl ∧
        (if selectedIds.contains a.id = true then
          groupRetagBill groupNameInput groupColorInput now a else a).customerName = a.customerName ∧
        (if selectedIds.contains a.id = true then
          groupRetagBill groupNameInput groupColorInput now a else a).address = a.address ∧
        (if selectedIds.contains a.id = true then
          groupRetagBill groupNameInput groupColorInput now a else a).invoiceNo = a.invoiceNo ∧
        (if selectedIds.contains a.id = true then
          groupRetagBill groupNameInput groupColorInput now a else a).billDate = a.billDate ∧
        (if selectedIds.contains a.id = true then
          groupRetagBill groupNameInput groupColorInput now a else a).status = a.status ∧
        (if selectedIds.contains a.id = true then
          groupRetagBill groupNameInput groupColorInput now a else a).isDelivery = a.isDelivery ∧
        (if selectedIds.contains a.id = true then
          groupRetagBill groupNameInput groupColorInput now a else a).hasCRN = a.hasCRN ∧
        (if selectedIds.contains a.id = true then
          groupRetagBill groupNameInput groupColorInput now a else a).isEditedBill = a.isEditedBill ∧
        (if selectedIds.contains a.id = true then
          groupRetagBill groupNameInput groupColorInput now a else a).isAdditionalBill = a.isAdditionalBill ∧
        (if selectedIds.contains a.id = true then
          groupRetagBill groupNameInput groupColorInput now a else a).boxCount = a.boxCount ∧
        (if selectedIds.contains a.id = true then
          groupRetagBill groupNameInput groupColorInput now a else a).entryDate = a.entryDate ∧
        (if selectedIds.contains a.id = true then
          groupRetagBill groupNameInput groupColorInput now a else a).createdAt = a.createdAt ∧
        (if selectedIds.contains a.id = true then
          groupRetagBill groupNameInput groupColorInput now a else a).packedAt = a.packedAt
      rw [if_pos hsel]
      exact ⟨rfl, rfl, rfl, rfl, rfl, rfl, rfl, rfl, rfl, rfl, rfl, rfl, rfl,
        rfl, rfl, rfl, rfl, rfl⟩

/-- C10, closed instance: re-tagging the singleton selection keeps the store
size. -/
theorem applyGroupSettings_frame_witness :
    (applyGroupSettings ["s1"] "Area 51 Shops" "" 7 [backlogSample]).length = 1 :=
  (applyGroupSettings_frame ["s1"] "Area 51 Shops" "" 7 [backlogSample]).1.trans rfl

end Grace
